import Mathlib

/-!
Verification of the reading-difficulty detection pipeline.

This file gives a shallow embedding, over exact rationals, of the core of the
repository: the two scoring functions, temporal-feature extraction over the
bounded feature history, the per-frame prediction step, the capture loop's
failure policy, and the session data logger.  Theorems at the end settle the
behavioural claims about the pipeline.
-/

namespace ReadingDetector

/-- Feature map read by the scoring functions.  Mirrors the Python `features`
dict passed to `_calculate_rule_based_score` / `_calculate_basic_score`:
each key may be absent, and `features.get(key, default)` is `Option.getD`. -/
structure Features where
  blink_rate : Option ℚ
  gaze_stability_x : Option ℚ
  gaze_direction_changes : Option ℚ
  pitch : Option ℚ
  avg_ear : Option ℚ
deriving Repr, DecidableEq

/-- `self.blink_threshold = 0.2` from `ReadingDifficultyDetector.__init__`. -/
def blink_threshold : ℚ := 0.2

/-- `self.max_history = 300` from `ReadingDifficultyDetector.__init__`. -/
def max_history : ℕ := 300

/-- Embedding of `_calculate_rule_based_score`: five if/elif threshold
ladders accumulated into `score`, then `min(score, 1.0)`. -/
def calculate_rule_based_score (features : Features) : ℚ :=
  let score : ℚ := 0
  let blink_rate := features.blink_rate.getD 15
  let score := score +
    (if blink_rate < 8 then 0.25
     else if blink_rate < 12 then 0.1
     else if blink_rate > 25 then 0.15
     else 0)
  let gaze_stability_x := features.gaze_stability_x.getD 0
  let score := score +
    (if gaze_stability_x > 2000 then 0.3
     else if gaze_stability_x > 1000 then 0.15
     else 0)
  let direction_changes := features.gaze_direction_changes.getD 0
  let score := score +
    (if direction_changes > 80 then 0.25
     else if direction_changes > 50 then 0.1
     else 0)
  let pitch := features.pitch.getD 0
  let score := score +
    (if pitch < -15 then 0.15
     else if pitch < -8 then 0.05
     else 0)
  let avg_ear := features.avg_ear.getD 0.3
  let score := score +
    (if avg_ear < 0.15 then 0.15
     else if avg_ear < 0.2 then 0.05
     else 0)
  min score 1

/-- Embedding of `_calculate_basic_score`: the instantaneous-feature
fallback used while temporal metrics are unavailable. -/
def calculate_basic_score (features : Features) : ℚ :=
  let score : ℚ := 0
  let avg_ear := features.avg_ear.getD 0.3
  let score := score +
    (if avg_ear < 0.15 then 0.3
     else if avg_ear < 0.2 then 0.1
     else 0)
  let pitch := features.pitch.getD 0
  let score := score +
    (if pitch < -15 then 0.2
     else 0)
  min score 1

/-! Claim-side formalisations of the scoring ladders, written from the
specification's wording, to be compared with the code embedding. -/

/-- Spec ladder 1: blink_rate < 8 → +0.25; elif < 12 → +0.10; elif > 25 → +0.15. -/
def spec_blink_ladder (br : ℚ) : ℚ :=
  if br < 8 then 0.25 else if br < 12 then 0.1 else if br > 25 then 0.15 else 0

/-- Spec ladder 2: gaze_stability_x > 2000 → +0.30; elif > 1000 → +0.15. -/
def spec_stability_ladder (gsx : ℚ) : ℚ :=
  if gsx > 2000 then 0.3 else if gsx > 1000 then 0.15 else 0

/-- Spec ladder 3: gaze_direction_changes > 80 → +0.25; elif > 50 → +0.10. -/
def spec_direction_ladder (dc : ℚ) : ℚ :=
  if dc > 80 then 0.25 else if dc > 50 then 0.1 else 0

/-- Spec ladder 4: pitch < −15 → +0.15; elif < −8 → +0.05. -/
def spec_pitch_ladder (p : ℚ) : ℚ :=
  if p < -15 then 0.15 else if p < -8 then 0.05 else 0

/-- Spec ladder 5: avg_ear < 0.15 → +0.15; elif < 0.20 → +0.05. -/
def spec_ear_ladder (ae : ℚ) : ℚ :=
  if ae < 0.15 then 0.15 else if ae < 0.2 then 0.05 else 0

/-- Spec basic mode: avg_ear < 0.15 → +0.3; elif < 0.20 → +0.1;
additionally pitch < −15 → +0.2; capped at 1.0. -/
def spec_basic_score (ae p : ℚ) : ℚ :=
  min ((if ae < 0.15 then 0.3 else if ae < 0.2 then 0.1 else 0)
       + (if p < -15 then 0.2 else 0)) 1

/-- Per-frame feature vector built by `predict_reading_difficulty` from
`extract_eye_features`, `extract_head_pose` and the fps counter
(`current_features` in the Python source). -/
structure FeatureVector where
  left_ear : ℚ
  right_ear : ℚ
  avg_ear : ℚ
  gaze_x : ℚ
  gaze_y : ℚ
  eye_distance : ℚ
  pitch : ℚ
  yaw : ℚ
  roll : ℚ
  distance : ℚ
  fps : ℚ
deriving Repr, DecidableEq

/-- Pairs of consecutive elements of a list, used for frame-to-frame deltas. -/
def adjacentPairs {α : Type} (xs : List α) : List (α × α) :=
  xs.zip xs.tail

/-- `pandas.Series.diff().dropna()`: first differences of a sequence. -/
def listDiff (xs : List ℚ) : List ℚ :=
  (adjacentPairs xs).map (fun p => p.2 - p.1)

/-- Arithmetic mean (`pandas.Series.mean`); only evaluated on non-empty
sequences in the source. -/
def sampleMean (xs : List ℚ) : ℚ :=
  xs.sum / (xs.length : ℚ)

/-- Sample variance with denominator n−1 (`pandas.Series.var`, default
ddof = 1); only evaluated on sequences of ≥ 30 samples in the source. -/
def sampleVariance (xs : List ℚ) : ℚ :=
  (xs.map (fun x => (x - sampleMean xs) ^ 2)).sum / ((xs.length : ℚ) - 1)

/-- `numpy.sign` restricted to the rationals. -/
def sign3 (x : ℚ) : ℤ :=
  if x > 0 then 1 else if x < 0 then -1 else 0

/-- `(df['avg_ear'] < self.blink_threshold).astype(int)` on one sample. -/
def blinkIndicator (e : ℚ) : ℤ :=
  if e < blink_threshold then 1 else 0

/-- The temporal-metric dict returned by `extract_temporal_features`; each
key may be absent, and the dict is Python-truthy iff some key is present. -/
structure TemporalFeatures where
  gaze_stability_x : Option ℚ
  gaze_stability_y : Option ℚ
  reading_progression : Option ℚ
  gaze_direction_changes : Option ℚ
  blink_rate : Option ℚ
deriving Repr, DecidableEq

/-- The empty temporal dict (`return {}`). -/
def emptyTemporal : TemporalFeatures :=
  ⟨none, none, none, none, none⟩

/-- Python truthiness of the temporal dict: at least one key present. -/
def temporalNonempty (t : TemporalFeatures) : Bool :=
  t.gaze_stability_x.isSome || t.gaze_stability_y.isSome ||
  t.reading_progression.isSome || t.gaze_direction_changes.isSome ||
  t.blink_rate.isSome

/-- `self.feature_history[-300:]`: the most recent up-to-300 samples. -/
def recentWindow (history : List FeatureVector) : List FeatureVector :=
  history.drop (history.length - max_history)

/-- Embedding of `extract_temporal_features`.  Returns the empty dict below
30 samples; otherwise computes, over the most recent ≤ 300 samples, gaze
variance, mean gaze-x delta, `np.sum(np.diff(np.sign(deltas)) != 0)` and
`2 * np.sum(np.diff(blink_indicators) == 1)`, with the source's inner
length guards.  (In this typed model the `gaze_x`/`avg_ear` columns always
exist and no exception can be raised.) -/
def extract_temporal_features (history : List FeatureVector) : TemporalFeatures :=
  if history.length < 30 then emptyTemporal
  else
    let recent := recentWindow history
    let gxs := recent.map (·.gaze_x)
    let gys := recent.map (·.gaze_y)
    let gaze_diff_x := listDiff gxs
    let ears := recent.map (·.avg_ear)
    { gaze_stability_x := some (sampleVariance gxs)
      gaze_stability_y := some (sampleVariance gys)
      reading_progression :=
        if gaze_diff_x.length > 0 then some (sampleMean gaze_diff_x) else none
      gaze_direction_changes :=
        if gaze_diff_x.length > 0 then
          some (((adjacentPairs gaze_diff_x).countP
            (fun p => sign3 p.2 - sign3 p.1 ≠ 0) : ℚ))
        else none
      blink_rate :=
        if ears.length > 1 then
          some ((((adjacentPairs ears).countP
            (fun p => blinkIndicator p.2 - blinkIndicator p.1 = 1)) * 2 : ℚ))
        else none }

/-- `self.feature_history.append(...)` followed by
`if len > self.max_history: self.feature_history.pop(0)`. -/
def pushFeature (history : List FeatureVector) (fv : FeatureVector) :
    List FeatureVector :=
  if (history ++ [fv]).length > max_history then (history ++ [fv]).tail
  else history ++ [fv]

/-- The feature map handed to `_calculate_rule_based_score`:
the merge of current and temporal features restricted to the keys the
scorer reads (the key sets are disjoint, so the merge never shadows). -/
def ruleInput (fv : FeatureVector) (t : TemporalFeatures) : Features :=
  { blink_rate := t.blink_rate
    gaze_stability_x := t.gaze_stability_x
    gaze_direction_changes := t.gaze_direction_changes
    pitch := some fv.pitch
    avg_ear := some fv.avg_ear }

/-- The feature map handed to `_calculate_basic_score` (`current_features`
only; the temporal keys are absent). -/
def basicInput (fv : FeatureVector) : Features :=
  { blink_rate := none
    gaze_stability_x := none
    gaze_direction_changes := none
    pitch := some fv.pitch
    avg_ear := some fv.avg_ear }

/-- The feature output of one prediction: either the explicit no-detection
marker dict holding the keys `error` (value `No face detected`) and `fps`,
or the merged current + temporal features. -/
inductive PredictionFeatures where
  | noFace (fps : ℚ)
  | face (current : FeatureVector) (temporal : TemporalFeatures)
deriving Repr, DecidableEq

/-- Result of one call to `predict_reading_difficulty`: the returned pair
plus the post-call feature history (the mutated detector state). -/
structure PredictResult where
  score : ℚ
  features : PredictionFeatures
  history : List FeatureVector
deriving Repr, DecidableEq

/-- Embedding of `predict_reading_difficulty`.  The upstream landmark
detection and per-frame feature extraction (MediaPipe, OpenCV) are external;
their outcome is the `Option FeatureVector` input: `none` when no face was
detected, otherwise the current frame's feature vector. -/
def predict_reading_difficulty (history : List FeatureVector) (fps : ℚ)
    (landmark_result : Option FeatureVector) : PredictResult :=
  match landmark_result with
  | none => ⟨0, .noFace fps, history⟩
  | some fv =>
    let history := pushFeature history fv
    let temporal := extract_temporal_features history
    let score :=
      if temporalNonempty temporal then
        calculate_rule_based_score (ruleInput fv temporal)
      else
        calculate_basic_score (basicInput fv)
    ⟨score, .face fv temporal, history⟩

/-- Claim-side count of rising blink transitions: adjacent sample pairs
where the averaged EAR crosses from at-or-above 0.2 to below 0.2. -/
def risingCrossCount (ears : List ℚ) : ℕ :=
  (adjacentPairs ears).countP
    (fun p => decide ((0.2 : ℚ) ≤ p.1) && decide (p.2 < (0.2 : ℚ)))

/-- Claim-side count of sign reversals: adjacent delta pairs whose
three-valued delta direction differs. -/
def signReversalCount (deltas : List ℚ) : ℕ :=
  (adjacentPairs deltas).countP (fun p => decide (sign3 p.1 ≠ sign3 p.2))

/-- A feature vector with the given averaged EAR and gaze-x, neutral
elsewhere; used to build concrete histories. -/
def mkFV (ae gx : ℚ) : FeatureVector :=
  ⟨0.3, 0.3, ae, gx, 0, 0, 0, 0, 0, 0, 30⟩

/-- A 30-sample history whose averaged EAR crosses below 0.2 exactly twice. -/
def earWitnessHistory : List FeatureVector :=
  List.replicate 8 (mkFV 0.35 0) ++ List.replicate 5 (mkFV 0.18 0) ++
  List.replicate 8 (mkFV 0.35 0) ++ List.replicate 5 (mkFV 0.18 0) ++
  List.replicate 4 (mkFV 0.35 0)

/-- A 30-sample history whose gaze-x deltas reverse direction exactly twice
(up for 10 samples, down for 10, up for 10). -/
def gazeWitnessHistory : List FeatureVector :=
  [mkFV 0.3 0, mkFV 0.3 1, mkFV 0.3 2, mkFV 0.3 3, mkFV 0.3 4,
   mkFV 0.3 5, mkFV 0.3 6, mkFV 0.3 7, mkFV 0.3 8, mkFV 0.3 9,
   mkFV 0.3 8, mkFV 0.3 7, mkFV 0.3 6, mkFV 0.3 5, mkFV 0.3 4,
   mkFV 0.3 3, mkFV 0.3 2, mkFV 0.3 1, mkFV 0.3 0, mkFV 0.3 (-1),
   mkFV 0.3 0, mkFV 0.3 1, mkFV 0.3 2, mkFV 0.3 3, mkFV 0.3 4,
   mkFV 0.3 5, mkFV 0.3 6, mkFV 0.3 7, mkFV 0.3 8, mkFV 0.3 9]

/-! Capture loop (`VideoProcessor._capture_loop`). -/

/-- `max_failures = 5` from `_capture_loop`. -/
def max_failures : ℕ := 5

/-- Loop-visible state of the video processor: the consecutive-failure
counter local to `_capture_loop`, whether `self.cap` is still an open
device connection, the `self.is_running` flag, and whether the loop has
broken out. -/
structure CaptureState where
  consecutive_failures : ℕ
  cap_open : Bool
  is_running : Bool
  exited : Bool
deriving Repr, DecidableEq

/-- Observable actions of one loop iteration: publishing a preprocessed
frame into the latest-frame slot, the 0.1 s backoff sleep after a
transient failure, or breaking out after too many failures. -/
inductive CaptureEvent where
  | published
  | backoff
  | fatal
deriving Repr, DecidableEq

/-- One iteration body of `_capture_loop`, driven by whether `cap.read()`
returned a frame.  A successful read resets the failure counter, stores the
frame and paces the loop; a failed read (or an exception) increments the
counter, then either breaks out (counter at `max_failures`) or sleeps 0.1 s.
No statement in the loop calls `self.cap.release()` or clears
`self.is_running`, so `cap_open` and `is_running` are untouched here. -/
def capture_step (s : CaptureState) (read_ok : Bool) :
    CaptureState × List CaptureEvent :=
  if read_ok then
    ({ s with consecutive_failures := 0 }, [.published])
  else
    if s.consecutive_failures + 1 ≥ max_failures then
      ({ s with consecutive_failures := s.consecutive_failures + 1,
                exited := true }, [.fatal])
    else
      ({ s with consecutive_failures := s.consecutive_failures + 1 },
       [.backoff])

/-- `_capture_loop` run against a finite schedule of read outcomes,
starting from the given state; the `while self.is_running and self.cap and
self.cap.isOpened()` guard and the `break` are the stopping conditions. -/
def capture_run : CaptureState → List Bool → CaptureState × List CaptureEvent
  | s, [] => (s, [])
  | s, r :: rs =>
    if s.exited || !s.is_running || !s.cap_open then (s, [])
    else
      let step := capture_step s r
      let rest := capture_run step.1 rs
      (rest.1, step.2 ++ rest.2)

/-- Loop entry state: counter zero, device open, running flag set. -/
def initialCaptureState : CaptureState := ⟨0, true, true, false⟩

/-! Data logger (`DataLogger`). -/

/-- One sanitized detection record: ISO timestamp, difficulty score and the
sanitized feature map (timestamps as rationals in this model). -/
structure Detection where
  timestamp : ℚ
  difficulty_score : ℚ
  features : List (String × ℚ)
deriving Repr, DecidableEq

/-- A raw detection dict as supplied to `end_session` as
`detection_history`: each key read via `.get` may be absent. -/
structure RawDetection where
  timestamp : Option ℚ
  difficulty_score : Option ℚ
  features : List (String × ℚ)
deriving Repr, DecidableEq

/-- `_sanitize_features`: converts non-primitive Python values to lists or
strings.  In this typed model every feature value is already a primitive
number, so sanitization is the identity map. -/
def sanitize_features (feats : List (String × ℚ)) : List (String × ℚ) :=
  feats

/-- One in-memory session: its start time and the append-only detection
list (`user_info` and `metadata` carry no behaviour and are omitted). -/
structure SessionData where
  start_time : ℚ
  detections : List Detection
deriving Repr, DecidableEq

/-- The finalized session record written by `end_session`. -/
structure SessionSummary where
  start_time : ℚ
  end_time : ℚ
  duration : ℚ
  total_detections : ℕ
  avg_difficulty_score : ℚ
  max_difficulty_score : ℚ
  detections : List Detection
deriving Repr, DecidableEq

/-- `self.current_sessions`: a dict from session id to session data,
modelled as an association list looked up on the first matching key. -/
abbrev Logger := List (String × SessionData)

/-- `start_session`: create a new empty session under a fresh id. -/
def start_session (lg : Logger) (sid : String) (t0 : ℚ) : Logger :=
  (sid, ⟨t0, []⟩) :: lg

/-- Dict entry update: replace the value stored under the given key. -/
def setSession : Logger → String → SessionData → Logger
  | [], _, _ => []
  | (k, v) :: rest, sid, sd =>
    if k == sid then (k, sd) :: rest else (k, v) :: setSession rest sid sd

/-- `del self.current_sessions[sid]`: drop the entry under the key. -/
def removeSession : Logger → String → Logger
  | [], _ => []
  | (k, v) :: rest, sid =>
    if k == sid then rest else (k, v) :: removeSession rest sid

/-- `log_detection`: append a sanitized record to a known session; an
unknown session id only prints a message and returns. -/
def log_detection (lg : Logger) (sid : String) (difficulty_score : ℚ)
    (features : List (String × ℚ)) (t : ℚ) : Logger :=
  match lg.lookup sid with
  | none => lg
  | some sd =>
      setSession lg sid
        ⟨sd.start_time,
         sd.detections ++ [⟨t, difficulty_score, sanitize_features features⟩]⟩

/-- Conversion applied by `end_session` to each supplied raw detection:
missing timestamps default to the current time, missing scores to 0. -/
def convertDetection (t_now : ℚ) (rd : RawDetection) : Detection :=
  ⟨rd.timestamp.getD t_now, rd.difficulty_score.getD 0,
   sanitize_features rd.features⟩

/-- Python `max` over a score list; the nil case is unreachable in the
source, which guards on a non-empty detection list. -/
def pyMax : List ℚ → ℚ
  | [] => 0
  | x :: xs => xs.foldl max x

/-- `end_session`: on an unknown id, report and change nothing; otherwise
take the final detection list (a supplied truthy `detection_history`
supersedes the logged one; `None` or an empty list does not), compute the
summary statistics and duration, emit the durable record, and discard the
in-memory session. -/
def end_session (lg : Logger) (sid : String)
    (detection_history : Option (List RawDetection)) (t_end : ℚ) :
    Logger × Option SessionSummary :=
  match lg.lookup sid with
  | none => (lg, none)
  | some sd =>
      let detections :=
        match detection_history with
        | none => sd.detections
        | some h =>
            if h.isEmpty then sd.detections
            else h.map (convertDetection t_end)
      let difficulty_scores := detections.map (·.difficulty_score)
      let avg_difficulty :=
        if detections.isEmpty then 0
        else difficulty_scores.sum / (difficulty_scores.length : ℚ)
      let max_difficulty :=
        if detections.isEmpty then 0 else pyMax difficulty_scores
      (removeSession lg sid,
       some ⟨sd.start_time, t_end, t_end - sd.start_time, detections.length,
             avg_difficulty, max_difficulty, detections⟩)

end ReadingDetector

namespace ReadingDetector

/-- Every threshold-ladder increment is non-negative. -/
theorem ladder_nonneg (br gsx dc p ae : ℚ) :
    0 ≤ spec_blink_ladder br ∧ 0 ≤ spec_stability_ladder gsx ∧
    0 ≤ spec_direction_ladder dc ∧ 0 ≤ spec_pitch_ladder p ∧
    0 ≤ spec_ear_ladder ae := by
  unfold spec_blink_ladder spec_stability_ladder spec_direction_ladder
    spec_pitch_ladder spec_ear_ladder
  refine ⟨?_, ?_, ?_, ?_, ?_⟩ <;> split_ifs <;> norm_num

/-- C2: in rule-based mode the score is exactly the sum of the five
specification threshold ladders, capped at 1.0, for every feature map
containing the temporal metrics. -/
theorem rule_based_score_is_ladder_sum (br gsx dc p ae : ℚ) :
    calculate_rule_based_score
        ⟨some br, some gsx, some dc, some p, some ae⟩ =
      min (spec_blink_ladder br + spec_stability_ladder gsx +
           spec_direction_ladder dc + spec_pitch_ladder p +
           spec_ear_ladder ae) 1 := by
  simp only [calculate_rule_based_score, Option.getD_some,
    spec_blink_ladder, spec_stability_ladder, spec_direction_ladder,
    spec_pitch_ladder, spec_ear_ladder, zero_add]

/-- C1: in both scoring modes the returned difficulty score lies in [0,1],
for every input feature map. -/
theorem score_in_unit_interval (f : Features) :
    0 ≤ calculate_rule_based_score f ∧ calculate_rule_based_score f ≤ 1 ∧
    0 ≤ calculate_basic_score f ∧ calculate_basic_score f ≤ 1 := by
  unfold calculate_rule_based_score calculate_basic_score
  refine ⟨le_min ?_ (by norm_num), min_le_right _ _,
          le_min ?_ (by norm_num), min_le_right _ _⟩ <;>
    split_ifs <;> norm_num

/-- The basic-mode scorer on a current-frame feature map computes exactly
the specification's basic-mode formula. -/
theorem calculate_basic_score_eq_spec (fv : FeatureVector) :
    calculate_basic_score (basicInput fv) =
      spec_basic_score fv.avg_ear fv.pitch := by
  simp [calculate_basic_score, basicInput, spec_basic_score]

/-- The temporal dict is truthy exactly when at least 30 samples are in the
history: below 30 the empty dict is returned, at or above 30 the gaze
variance key is always populated. -/
theorem temporal_nonempty_iff (h : List FeatureVector) :
    temporalNonempty (extract_temporal_features h) = true ↔ 30 ≤ h.length := by
  unfold extract_temporal_features
  split
  · next hlt =>
      simp only [temporalNonempty, emptyTemporal, Option.isSome_none,
        Bool.or_self, Bool.false_or]
      constructor
      · intro hfalse; cases hfalse
      · omega
  · next hge =>
      simp only [temporalNonempty, Option.isSome_some, Bool.true_or,
        Bool.or_self, true_iff]
      omega

/-- C3: scoring-mode selection is a pure function of whether the history
holds at least 30 samples: the temporal dict is non-empty iff the post-push
history has ≥ 30 samples, below 30 the score is exactly the specification's
basic-mode formula, and at 30 or above it is the rule-based ladder score of
the merged features. -/
theorem mode_selection_by_history_length (history : List FeatureVector)
    (fps : ℚ) (fv : FeatureVector) :
    (temporalNonempty (extract_temporal_features (pushFeature history fv)) =
        true ↔ 30 ≤ (pushFeature history fv).length) ∧
    (predict_reading_difficulty history fps (some fv)).score =
      (if (pushFeature history fv).length < 30 then
         spec_basic_score fv.avg_ear fv.pitch
       else
         calculate_rule_based_score
           (ruleInput fv (extract_temporal_features (pushFeature history fv)))) := by
  refine ⟨temporal_nonempty_iff _, ?_⟩
  have hiff := temporal_nonempty_iff (pushFeature history fv)
  by_cases hlen : (pushFeature history fv).length < 30
  · have hfalse : temporalNonempty
        (extract_temporal_features (pushFeature history fv)) = false := by
      rcases Bool.eq_false_or_eq_true
        (temporalNonempty (extract_temporal_features (pushFeature history fv)))
        with h | h
      · exact absurd (hiff.mp h) (by omega)
      · exact h
    simp [predict_reading_difficulty, hfalse, hlen,
      calculate_basic_score_eq_spec]
  · have htrue : temporalNonempty
        (extract_temporal_features (pushFeature history fv)) = true :=
      hiff.mpr (by omega)
    simp [predict_reading_difficulty, htrue, hlen]

/-- Appending one feature vector preserves the history capacity bound. -/
theorem pushFeature_length_le (history : List FeatureVector)
    (fv : FeatureVector) (hl : history.length ≤ max_history) :
    (pushFeature history fv).length ≤ max_history := by
  unfold pushFeature
  split
  · simp only [List.length_tail, List.length_append, List.length_singleton]
    omega
  · next hno =>
      simp only [gt_iff_lt, not_lt, List.length_append,
        List.length_singleton] at hno ⊢
      omega

/-- As long as capacity is not exceeded, pushing is plain appending. -/
theorem pushFeature_foldl_no_evict (vs : List FeatureVector) :
    ∀ history : List FeatureVector,
      history.length + vs.length ≤ max_history →
      vs.foldl pushFeature history = history ++ vs := by
  induction vs with
  | nil => intro history _; simp
  | cons v t ih =>
      intro history hlen
      simp only [List.length_cons] at hlen
      have hpush : pushFeature history v = history ++ [v] := by
        unfold pushFeature
        rw [if_neg]
        simp only [gt_iff_lt, not_lt, List.length_append,
          List.length_singleton]
        omega
      have hih := ih (history ++ [v])
        (by simp only [List.length_append, List.length_singleton]; omega)
      rw [List.foldl_cons, hpush, hih]
      simp

/-- C4: the feature history never exceeds capacity 300 and evicts
oldest-first: pushing any 301 vectors into an empty history leaves exactly
the last 300 in push order (the first pushed vector is gone), and every
prediction preserves the capacity bound. -/
theorem feature_history_bounded_fifo :
    (∀ vs : List FeatureVector, vs.length = 301 →
        vs.foldl pushFeature [] = vs.tail) ∧
    (∀ (history : List FeatureVector) (fps : ℚ) (inp : Option FeatureVector),
        history.length ≤ max_history →
        (predict_reading_difficulty history fps inp).history.length ≤
          max_history) := by
  constructor
  · intro vs hlen
    rcases List.eq_nil_or_concat vs with rfl | ⟨l, b, rfl⟩
    · simp at hlen
    · have hl : l.length = 300 := by
        simpa [List.concat_eq_append] using hlen
      rw [List.concat_eq_append, List.foldl_append,
        pushFeature_foldl_no_evict l [] (by simp [hl, max_history]),
        List.nil_append, List.foldl_cons, List.foldl_nil]
      unfold pushFeature
      rw [if_pos]
      simp [hl, max_history]
  · intro history fps inp hl
    match inp with
    | none => exact hl
    | some fv =>
        simpa [predict_reading_difficulty] using
          pushFeature_length_le history fv hl

/-- C4 witness: pushing 301 concrete vectors drops exactly the first, and
a prediction from an empty history keeps the capacity bound. -/
theorem feature_history_bounded_fifo_witness :
    (List.replicate 301 (mkFV 0.3 0)).foldl pushFeature [] =
        (List.replicate 301 (mkFV 0.3 0)).tail ∧
    (predict_reading_difficulty [] 30 none).history.length ≤ max_history :=
  ⟨feature_history_bounded_fifo.1 (List.replicate 301 (mkFV 0.3 0))
     (by rw [List.length_replicate]),
   feature_history_bounded_fifo.2 [] 30 none (Nat.zero_le _)⟩

/-- C6: a frame with no detected face returns score 0.0 with the explicit
no-detection marker and leaves the feature history unchanged. -/
theorem no_face_zero_score_history_unchanged
    (history : List FeatureVector) (fps : ℚ) :
    predict_reading_difficulty history fps none =
      ⟨0, .noFace fps, history⟩ := rfl

/-- A consecutive pair of indicator values differs by one exactly on a
rising transition of the EAR across the blink threshold. -/
theorem blink_pair_iff (a b : ℚ) :
    blinkIndicator b - blinkIndicator a = 1 ↔ (0.2 : ℚ) ≤ a ∧ b < 0.2 := by
  unfold blinkIndicator blink_threshold
  rcases lt_or_le a 0.2 with ha | ha <;> rcases lt_or_le b 0.2 with hb | hb
  · rw [if_pos ha, if_pos hb]
    exact iff_of_false (by norm_num) (fun h => absurd h.1 (not_le.mpr ha))
  · rw [if_pos ha, if_neg (not_lt.mpr hb)]
    exact iff_of_false (by norm_num) (fun h => absurd h.1 (not_le.mpr ha))
  · rw [if_neg (not_lt.mpr ha), if_pos hb]
    exact iff_of_true (by norm_num) ⟨ha, hb⟩
  · rw [if_neg (not_lt.mpr ha), if_neg (not_lt.mpr hb)]
    exact iff_of_false (by norm_num) (fun h => absurd h.2 (not_lt.mpr hb))

/-- A difference of three-valued signs is non-zero exactly when the signs
differ. -/
theorem sign_pair_iff (a b : ℚ) :
    sign3 b - sign3 a ≠ 0 ↔ sign3 a ≠ sign3 b := by
  rw [sub_ne_zero]
  exact ne_comm

/-- The recent window holds `min (length, 300)` samples. -/
theorem recentWindow_length (h : List FeatureVector) :
    (recentWindow h).length = h.length - (h.length - max_history) := by
  simp [recentWindow]

/-- A list has one fewer consecutive pairs than elements. -/
theorem adjacentPairs_length {α : Type} (xs : List α) :
    (adjacentPairs xs).length = xs.length - 1 := by
  simp only [adjacentPairs, List.length_zip, List.length_tail]
  omega

/-- C5: for every history of at least 30 samples, the reported blink rate
is exactly twice the number of rising transitions where the averaged EAR
crosses from at-or-above 0.2 to below 0.2 between consecutive samples of
the recent window. -/
theorem blink_rate_doubles_crossings (history : List FeatureVector)
    (h30 : 30 ≤ history.length) :
    (extract_temporal_features history).blink_rate =
      some (2 * (risingCrossCount
        ((recentWindow history).map (·.avg_ear)) : ℚ)) := by
  have hlen : 1 < ((recentWindow history).map (·.avg_ear)).length := by
    simp only [List.length_map, recentWindow_length, max_history]
    omega
  unfold extract_temporal_features
  rw [if_neg (by omega)]
  dsimp only
  rw [if_pos hlen]
  have hcount :
      ((adjacentPairs ((recentWindow history).map (·.avg_ear))).countP
          (fun p => decide (blinkIndicator p.2 - blinkIndicator p.1 = 1))) =
        risingCrossCount ((recentWindow history).map (·.avg_ear)) := by
    unfold risingCrossCount
    refine List.countP_congr (fun x _ => ?_)
    simp only [decide_eq_true_eq, Bool.and_eq_true]
    exact blink_pair_iff x.1 x.2
  exact congrArg some (by rw [hcount, mul_comm])

/-- C5 witness: a 30-sample EAR sequence crossing below 0.2 exactly twice
reports blink_rate = 4. -/
theorem blink_rate_doubles_crossings_witness :
    30 ≤ earWitnessHistory.length ∧
    risingCrossCount ((recentWindow earWitnessHistory).map (·.avg_ear)) = 2 ∧
    (extract_temporal_features earWitnessHistory).blink_rate = some 4 := by
  have hc : risingCrossCount
      ((recentWindow earWitnessHistory).map (·.avg_ear)) = 2 := by
    norm_num [risingCrossCount, adjacentPairs, earWitnessHistory, mkFV,
      recentWindow, max_history, List.countP_cons, List.replicate,
      List.length_append, List.length_replicate]
  refine ⟨by decide, hc, ?_⟩
  rw [blink_rate_doubles_crossings earWitnessHistory (by decide), hc]
  norm_num

/-- C8: for every history of at least 30 samples, the reported
gaze-direction-change count is exactly the number of adjacent pairs of
consecutive gaze-x deltas of the recent window whose three-valued delta
direction differs. -/
theorem direction_changes_count_sign_reversals (history : List FeatureVector)
    (h30 : 30 ≤ history.length) :
    (extract_temporal_features history).gaze_direction_changes =
      some ((signReversalCount
        (listDiff ((recentWindow history).map (·.gaze_x))) : ℚ)) := by
  have hlen : 0 < (listDiff ((recentWindow history).map (·.gaze_x))).length := by
    simp only [listDiff, List.length_map, adjacentPairs_length,
      recentWindow_length, max_history]
    omega
  unfold extract_temporal_features
  rw [if_neg (by omega)]
  dsimp only
  rw [if_pos hlen]
  have hcount :
      ((adjacentPairs
          (listDiff ((recentWindow history).map (·.gaze_x)))).countP
          (fun p => decide (sign3 p.2 - sign3 p.1 ≠ 0))) =
        signReversalCount (listDiff ((recentWindow history).map (·.gaze_x))) := by
    unfold signReversalCount
    refine List.countP_congr (fun x _ => ?_)
    simp only [decide_eq_true_eq]
    exact sign_pair_iff x.1 x.2
  exact congrArg some (congrArg _ hcount)

/-- C7 counterexample: driving the capture loop with 5 consecutive read
failures makes it break out, yet the device connection is still open — the
loop does not terminate the device connection (that happens only in
`stop_capture`). -/
theorem capture_loop_leaves_device_open :
    (capture_run initialCaptureState (List.replicate 5 false)).1.exited =
        true ∧
    (capture_run initialCaptureState (List.replicate 5 false)).1.cap_open =
        true := by
  constructor <;> rfl

/-- C7 (amended): a transient read failure increments the
consecutive-failure counter and triggers the backoff sleep while fewer
than 5 failures have accumulated; a successful read resets the counter to
zero; on the 5th consecutive failure the loop breaks out — with no further
backoff and without releasing the device connection. -/
theorem capture_loop_failure_policy :
    (∀ s : CaptureState, capture_step s true =
        ({ s with consecutive_failures := 0 }, [.published])) ∧
    (∀ s : CaptureState, s.consecutive_failures + 1 < max_failures →
        capture_step s false =
          ({ s with consecutive_failures := s.consecutive_failures + 1 },
           [.backoff])) ∧
    (∀ s : CaptureState, max_failures ≤ s.consecutive_failures + 1 →
        capture_step s false =
          ({ s with consecutive_failures := s.consecutive_failures + 1,
                    exited := true }, [.fatal])) ∧
    (capture_run initialCaptureState (List.replicate max_failures false)).1 =
        ⟨max_failures, true, true, true⟩ ∧
    (capture_run initialCaptureState (List.replicate max_failures false)).2 =
        List.replicate (max_failures - 1) .backoff ++ [.fatal] := by
  refine ⟨fun s => rfl, fun s h => ?_, fun s h => ?_, rfl, rfl⟩
  · unfold capture_step
    rw [if_neg (by simp), if_neg (by omega)]
  · unfold capture_step
    rw [if_neg (by simp), if_pos (by omega)]

/-- C7 witness for the amended policy, at concrete loop states. -/
theorem capture_loop_failure_policy_witness :
    capture_step ⟨2, true, true, false⟩ true =
        (⟨0, true, true, false⟩, [.published]) ∧
    capture_step ⟨2, true, true, false⟩ false =
        (⟨3, true, true, false⟩, [.backoff]) ∧
    capture_step ⟨4, true, true, false⟩ false =
        (⟨5, true, true, true⟩, [.fatal]) :=
  ⟨capture_loop_failure_policy.1 ⟨2, true, true, false⟩,
   capture_loop_failure_policy.2.1 ⟨2, true, true, false⟩
     (by norm_num [max_failures]),
   capture_loop_failure_policy.2.2.1 ⟨4, true, true, false⟩
     (by norm_num [max_failures])⟩

/-- C8 witness: a 30-sample gaze-x path that goes up, then down, then up
reports exactly 2 direction changes. -/
theorem direction_changes_count_sign_reversals_witness :
    30 ≤ gazeWitnessHistory.length ∧
    signReversalCount (listDiff ((recentWindow gazeWitnessHistory).map
      (·.gaze_x))) = 2 ∧
    (extract_temporal_features gazeWitnessHistory).gaze_direction_changes =
      some 2 := by
  have hc : signReversalCount (listDiff ((recentWindow gazeWitnessHistory).map
      (·.gaze_x))) = 2 := by
    norm_num [signReversalCount, sign3, listDiff, adjacentPairs,
      gazeWitnessHistory, mkFV, recentWindow, max_history,
      List.countP_cons]
  refine ⟨by decide, hc, ?_⟩
  rw [direction_changes_count_sign_reversals gazeWitnessHistory (by decide),
    hc]
  norm_num

/-- Folding `max` only ever returns the seed or a list element. -/
theorem foldl_max_mem (xs : List ℚ) :
    ∀ x : ℚ, xs.foldl max x = x ∨ xs.foldl max x ∈ xs := by
  induction xs with
  | nil => intro x; exact Or.inl rfl
  | cons y ys ih =>
      intro x
      rw [List.foldl_cons]
      rcases ih (max x y) with h | h
      · rcases max_choice x y with hc | hc
        · exact Or.inl (h.trans hc)
        · exact Or.inr (by rw [h, hc]; exact List.mem_cons_self _ _)
      · exact Or.inr (List.mem_cons_of_mem _ h)

/-- Folding `max` dominates the seed and every list element. -/
theorem le_foldl_max (xs : List ℚ) :
    ∀ x : ℚ, x ≤ xs.foldl max x ∧ ∀ y ∈ xs, y ≤ xs.foldl max x := by
  induction xs with
  | nil => intro x; exact ⟨le_refl x, by simp⟩
  | cons z zs ih =>
      intro x
      rw [List.foldl_cons]
      refine ⟨le_trans (le_max_left x z) (ih (max x z)).1, ?_⟩
      intro y hy
      rcases List.mem_cons.mp hy with rfl | hy
      · exact le_trans (le_max_right x y) (ih (max x y)).1
      · exact (ih (max x z)).2 y hy

/-- `pyMax` of a non-empty list is a member and an upper bound. -/
theorem pyMax_spec (x : ℚ) (xs : List ℚ) :
    pyMax (x :: xs) ∈ x :: xs ∧ ∀ y ∈ x :: xs, y ≤ pyMax (x :: xs) := by
  constructor
  · rcases foldl_max_mem xs x with h | h
    · rw [pyMax, h]; exact List.mem_cons_self _ _
    · exact List.mem_cons_of_mem _ h
  · intro y hy
    rcases List.mem_cons.mp hy with rfl | hy
    · exact (le_foldl_max xs y).1
    · exact (le_foldl_max xs x).2 y hy

/-- Updating a dict entry whose key sits at the head of the list. -/
theorem setSession_cons_self (sid : String) (sd sd' : SessionData)
    (rest : Logger) :
    setSession ((sid, sd) :: rest) sid sd' = (sid, sd') :: rest := by
  simp [setSession]

/-- Incremental logging into the session at the head of the dict appends
one sanitized record per call, in order. -/
theorem log_detection_foldl (sid : String) (t0 : ℚ) (rest : Logger)
    (logs : List (ℚ × ℚ)) :
    ∀ ds : List Detection,
      logs.foldl (fun lg p => log_detection lg sid p.1 [] p.2)
        ((sid, ⟨t0, ds⟩) :: rest) =
      (sid, ⟨t0, ds ++ logs.map (fun p => ⟨p.2, p.1, []⟩)⟩) :: rest := by
  induction logs with
  | nil => intro ds; simp
  | cons p t ih =>
      intro ds
      rw [List.foldl_cons]
      have hlog :
          log_detection ((sid, (⟨t0, ds⟩ : SessionData)) :: rest)
              sid p.1 [] p.2 =
            (sid, (⟨t0, ds ++ [⟨p.2, p.1, []⟩]⟩ : SessionData)) :: rest := by
        simp [log_detection, setSession, sanitize_features]
      rw [hlog, ih]
      simp

/-- Evaluation of `end_session` without a supplied history on a dict whose
head entry carries the session. -/
theorem end_session_cons_none (sid : String) (sd : SessionData)
    (rest : Logger) (t1 : ℚ) :
    end_session ((sid, sd) :: rest) sid none t1 =
      (rest,
       some ⟨sd.start_time, t1, t1 - sd.start_time, sd.detections.length,
         (if sd.detections.isEmpty then 0
          else (sd.detections.map (·.difficulty_score)).sum /
            ((sd.detections.map (·.difficulty_score)).length : ℚ)),
         (if sd.detections.isEmpty then 0
          else pyMax (sd.detections.map (·.difficulty_score))),
         sd.detections⟩) := by
  simp [end_session, removeSession]

/-- C9: a session lifecycle of start, N logged detections and end yields a
summary whose detection count is N, whose average is the mean of the N
logged scores and whose maximum is an upper bound attained by one of them,
after which the in-memory session is discarded; ending or logging to an
unknown session id leaves the stored sessions unchanged and produces no
record. -/
theorem session_lifecycle_summary :
    (∀ (lg0 : Logger) (sid : String) (t0 t1 : ℚ) (logs : List (ℚ × ℚ)),
        lg0.lookup sid = none → logs ≠ [] →
        ∃ s : SessionSummary,
          (end_session
              (logs.foldl (fun lg p => log_detection lg sid p.1 [] p.2)
                (start_session lg0 sid t0)) sid none t1).2 = some s ∧
          s.total_detections = logs.length ∧
          s.avg_difficulty_score =
            (logs.map Prod.fst).sum / (logs.length : ℚ) ∧
          s.max_difficulty_score ∈ logs.map Prod.fst ∧
          (∀ x ∈ logs.map Prod.fst, x ≤ s.max_difficulty_score) ∧
          (end_session
              (logs.foldl (fun lg p => log_detection lg sid p.1 [] p.2)
                (start_session lg0 sid t0)) sid none t1).1.lookup sid =
            none) ∧
    (∀ (lg : Logger) (sid : String) (hist : Option (List RawDetection))
        (t sc : ℚ) (feats : List (String × ℚ)),
        lg.lookup sid = none →
        end_session lg sid hist t = (lg, none) ∧
        log_detection lg sid sc feats t = lg) := by
  constructor
  · intro lg0 sid t0 t1 logs hfresh hne
    rcases logs with _ | ⟨q, qs⟩
    · exact absurd rfl hne
    have hfold := log_detection_foldl sid t0 lg0 (q :: qs) []
    rw [show start_session lg0 sid t0 = (sid, ⟨t0, []⟩) :: lg0 from rfl,
      hfold, end_session_cons_none]
    have hcomp : ((fun x : Detection => x.difficulty_score) ∘
        (fun p : ℚ × ℚ => (⟨p.2, p.1, []⟩ : Detection))) = Prod.fst :=
      funext fun p => rfl
    refine ⟨_, rfl, ?_, ?_, ?_, ?_, hfresh⟩
    · simp
    · simp [List.map_map, hcomp]
    · simpa [List.map_map, hcomp] using (pyMax_spec q.1 (qs.map Prod.fst)).1
    · intro x hx
      simpa [List.map_map, hcomp] using
        (pyMax_spec q.1 (qs.map Prod.fst)).2 x hx
  · intro lg sid hist t sc feats hnone
    exact ⟨by simp [end_session, hnone], by simp [log_detection, hnone]⟩

/-- C9 witness: a concrete run with two logged detections, plus ending and
logging against an absent session id. -/
theorem session_lifecycle_summary_witness :
    (∃ s : SessionSummary,
        (end_session
            ([((1 : ℚ), (10 : ℚ)), ((2 : ℚ), (11 : ℚ))].foldl
              (fun lg p => log_detection lg "a" p.1 [] p.2)
              (start_session [] "a" 0)) "a" none 20).2 = some s ∧
        s.total_detections =
          [((1 : ℚ), (10 : ℚ)), ((2 : ℚ), (11 : ℚ))].length ∧
        s.avg_difficulty_score =
          ([((1 : ℚ), (10 : ℚ)), ((2 : ℚ), (11 : ℚ))].map Prod.fst).sum /
            (([((1 : ℚ), (10 : ℚ)), ((2 : ℚ), (11 : ℚ))].length : ℕ) : ℚ) ∧
        s.max_difficulty_score ∈
          [((1 : ℚ), (10 : ℚ)), ((2 : ℚ), (11 : ℚ))].map Prod.fst ∧
        (∀ x ∈ [((1 : ℚ), (10 : ℚ)), ((2 : ℚ), (11 : ℚ))].map Prod.fst,
            x ≤ s.max_difficulty_score) ∧
        (end_session
            ([((1 : ℚ), (10 : ℚ)), ((2 : ℚ), (11 : ℚ))].foldl
              (fun lg p => log_detection lg "a" p.1 [] p.2)
              (start_session [] "a" 0)) "a" none 20).1.lookup "a" = none) ∧
    end_session [] "b" none 0 = ([], none) ∧
    log_detection [] "b" 3 [] 0 = [] := by
  refine ⟨session_lifecycle_summary.1 [] "a" 0 20
      [((1 : ℚ), (10 : ℚ)), ((2 : ℚ), (11 : ℚ))] rfl
      (List.cons_ne_nil _ _), ?_, ?_⟩
  · exact (session_lifecycle_summary.2 [] "b" none 0 3 [] rfl).1
  · exact (session_lifecycle_summary.2 [] "b" none 0 3 [] rfl).2

/-- C10: supplying an empty list as the full detection history to
`end_session` does not supersede the incrementally logged records — the
call behaves exactly as if no history had been supplied; only a non-empty
supplied history replaces them as the finalized detection list. -/
theorem empty_supplied_history_not_superseding :
    (∀ (lg : Logger) (sid : String) (t : ℚ),
        end_session lg sid (some []) t = end_session lg sid none t) ∧
    (∀ (lg : Logger) (sid : String) (sd : SessionData)
        (h : List RawDetection) (t : ℚ),
        lg.lookup sid = some sd → h ≠ [] →
        ∃ s : SessionSummary,
          (end_session lg sid (some h) t).2 = some s ∧
          s.detections = h.map (convertDetection t) ∧
          s.total_detections = h.length) := by
  constructor
  · intro lg sid t
    cases hl : lg.lookup sid <;> simp [end_session, hl]
  · intro lg sid sd h t hl hne
    rcases h with _ | ⟨r, rs⟩
    · exact absurd rfl hne
    have hend : end_session lg sid (some (r :: rs)) t =
        (removeSession lg sid,
         some ⟨sd.start_time, t, t - sd.start_time,
           ((r :: rs).map (convertDetection t)).length,
           (((r :: rs).map (convertDetection t)).map
               (·.difficulty_score)).sum /
             ((((r :: rs).map (convertDetection t)).map
                 (·.difficulty_score)).length : ℚ),
           pyMax (((r :: rs).map (convertDetection t)).map
             (·.difficulty_score)),
           (r :: rs).map (convertDetection t)⟩) := by
      simp [end_session, hl]
    rw [hend]
    exact ⟨_, rfl, rfl, by simp⟩

/-- C10 witness: ending with a supplied one-element raw history at a known
session id finalizes exactly the converted supplied history. -/
theorem empty_supplied_history_not_superseding_witness :
    end_session [("a", ⟨0, []⟩)] "a" (some []) 7 =
        end_session [("a", ⟨0, []⟩)] "a" none 7 ∧
    (∃ s : SessionSummary,
        (end_session [("a", ⟨0, []⟩)] "a"
            (some [⟨none, some (1 : ℚ), []⟩]) 7).2 = some s ∧
        s.detections = [(⟨none, some (1 : ℚ), []⟩ : RawDetection)].map
          (convertDetection 7) ∧
        s.total_detections =
          [(⟨none, some (1 : ℚ), []⟩ : RawDetection)].length) :=
  ⟨empty_supplied_history_not_superseding.1 [("a", ⟨0, []⟩)] "a" 7,
   empty_supplied_history_not_superseding.2 [("a", ⟨0, []⟩)] "a" ⟨0, []⟩
     [⟨none, some (1 : ℚ), []⟩] 7 rfl (List.cons_ne_nil _ _)⟩

end ReadingDetector
